import Mathlib

/-!
Verification of the `atum` lifetime-management header (`include/atum.hpp`).

The header provides four wrapper types around a raw `storage<T>` cell:

* `manual_init<T, Initializer>`: explicit two-phase lifecycle (construct, then
  destroy), with a debug `_initialized` flag read by `get()`'s lifetime assert.
* `lazy_init<Tag, T, Initializer>`: thread-safe exactly-once construction via a
  function-local static keyed by `Tag`; in checked builds the static records
  the `this` pointer of the constructing instance and every later call asserts
  the caller is that same instance.  `destroy()` is a deliberate no-op (leak).
* `nifty_init<T, Initializer>`: reference-counted lifecycle — `initialize()`
  post-increments the count and constructs when the pre-increment value was 0;
  `destroy()` pre-decrements and destructs when the new value is 0.  `get()`
  asserts `_count > 0`; `reference()` returns the storage with no check.
* `scoped_initializer<Inits...>`: the constructor folds `initialize()` over
  the referenced entities left-to-right, the `noexcept` destructor folds
  `destroy()` right-to-left.

The embedding models each wrapper as a small state machine.  Object identity
(the address of an instance / its storage) is modelled as a `Nat`; checked-mode
lifetime assertions (`ATUM_LIFETIME_ASSERT`) are modelled as an explicit `Bool`
result (or `Option` return) carrying whether every assertion evaluated during
the call held.  Construction and destruction of the wrapped `T` are counted
explicitly so that "exactly once" claims become arithmetic facts.
-/

namespace Atum

/-! ### manual_init (checked build, `ATUM_CHECK_LIFETIME = 1`)

`manual_init` holds a `storage<T>` and, in checked builds, a `_initialized`
flag.  `initialize()` runs the initializer into the storage and sets the flag;
it contains no assertion.  `destroy()` runs `~T()` and clears the flag; it
contains no assertion either.  `get()` asserts `_initialized` and returns the
storage reference. -/

structure ManualState where
  initialized : Bool
  constructions : Nat
  destructions : Nat
deriving DecidableEq, Repr

/-- The state of a freshly constructed `manual_init` (checked build):
`_initialized = false`, no construction or destruction has run. -/
def manualFresh : ManualState :=
  ⟨false, 0, 0⟩

/-- `manual_init::initialize()`: unconditionally runs the initializer into the
storage (counted as one construction) and sets `_initialized`.  The `Bool`
result is the conjunction of all `ATUM_LIFETIME_ASSERT` conditions evaluated
during the call; the source contains none, so it is always `true`. -/
def manual_initialize_op (s : ManualState) : ManualState × Bool :=
  (⟨true, s.constructions + 1, s.destructions⟩, true)

/-- `manual_init::destroy() &&`: unconditionally runs `~T()` (counted as one
destruction) and clears `_initialized`.  The source contains no assertion, so
the assertion result is always `true`. -/
def manual_destroy (s : ManualState) : ManualState × Bool :=
  (⟨false, s.constructions, s.destructions + 1⟩, true)

/-- `manual_init::get()`: asserts `_initialized` (the `Bool` component) and
returns a reference to the instance's own storage, modelled by the instance
identity `self`.  The state is not modified. -/
def manual_get (self : Nat) (s : ManualState) : Bool × Nat :=
  (s.initialized, self)

/-! ### lazy_init (checked build)

`lazy_init<Tag, T>::initialize()` declares a function-local static that is
shared by every instance of the same `Tag`.  Its (exactly-once) dynamic
initialization runs the initializer into the storage of the instance making
the first call and records that instance's `this` pointer; every call then
asserts that the recorded pointer is the calling instance.  The per-`Tag`
state is therefore: whether the static has been initialized, the recorded
owner, and how many constructions of `T` have run. -/

structure LazyTagState where
  staticDone : Bool
  owner : Option Nat
  constructions : Nat
deriving DecidableEq, Repr

/-- Per-`Tag` state before any call: the function-local static has not run. -/
def lazyFresh : LazyTagState :=
  ⟨false, none, 0⟩

/-- `lazy_init::initialize()` called on the instance `self`: if the static has
not run yet, it constructs `T` into `self`'s storage and records `self` as the
owner; otherwise nothing is constructed.  In both cases
`ATUM_LIFETIME_ASSERT(initializer == this)` is evaluated; its value is the
`Bool` component. -/
def lazy_initialize_op (self : Nat) (s : LazyTagState) : LazyTagState × Bool :=
  if s.staticDone then
    (s, s.owner == some self)
  else
    (⟨true, some self, s.constructions + 1⟩, true)

/-- `lazy_init::destroy() &&`: the body is the comment `// leak`; the state is
untouched and no destructor ever runs. -/
def lazy_destroy (s : LazyTagState) : LazyTagState :=
  s

/-- `lazy_init::get()`: calls `initialize()`, then returns a reference to the
instance's own storage (`self`).  Result: new state, assertion outcome of the
embedded `initialize()`, and the returned reference. -/
def lazy_get (self : Nat) (s : LazyTagState) : LazyTagState × Bool × Nat :=
  ((lazy_initialize_op self s).1, (lazy_initialize_op self s).2, self)

/-- The per-`Tag` state after the instance `self` has performed the one
construction. -/
def lazyOne (self : Nat) : LazyTagState :=
  ⟨true, some self, 1⟩

inductive LazyOp where
  | initOp
  | get
deriving DecidableEq, Repr

/-- One call of `initialize()` or `get()` on the instance `self`, as a state
transition of the per-`Tag` state. -/
def lazyStep (self : Nat) (s : LazyTagState) : LazyOp → LazyTagState
  | .initOp => (lazy_initialize_op self s).1
  | .get => (lazy_get self s).1

/-- Run a sequence of `initialize()`/`get()` calls on the single instance
`self`, starting from the fresh per-`Tag` state. -/
def runLazy (self : Nat) (ops : List LazyOp) : LazyTagState :=
  ops.foldl (lazyStep self) lazyFresh

/-! ### nifty_init

`nifty_init<T>` holds a `storage<T>` and an `std::atomic<int> _count`
initialized to 0.  `initialize()` is `if (_count++ == 0) init(...)`;
`destroy()` is `if (--_count == 0) ~T()`.  `get()` asserts `_count > 0` and
returns the storage; `reference()` returns the storage with no assertion.
The claims are about sequential traces, so the atomic counter is modelled as
an integer threaded through the trace; arithmetic on a `std::atomic<int>`
wraps in two's complement (it is defined, not UB, per the standard's atomic
integer arithmetic), so the stored value after an increment or decrement is
reduced into the 32-bit signed range `[-2^31, 2^31 - 1]` by `wrap32`. -/

/-- Two's-complement wraparound of `std::atomic<int>` arithmetic: reduce an
integer into the 32-bit signed range `[-2147483648, 2147483647]`
(`INT_MIN = -2^31`, `INT_MAX = 2^31 - 1`). -/
def wrap32 (n : Int) : Int :=
  (n + 2147483648) % 4294967296 - 2147483648

structure NiftyState where
  count : Int
  constructions : Nat
  destructions : Nat
deriving DecidableEq, Repr

/-- The state of a freshly constructed `nifty_init`: `_count = 0`. -/
def niftyFresh : NiftyState :=
  ⟨0, 0, 0⟩

/-- `nifty_init::initialize()`: `if (_count++ == 0) init(...)` — the value
observed by the test is the one before the increment; the stored counter
becomes the old value plus one, wrapped as 32-bit signed arithmetic.
Constructs `T` exactly when the pre-increment value was 0. -/
def nifty_initialize_op (s : NiftyState) : NiftyState :=
  if s.count = 0 then
    ⟨wrap32 (s.count + 1), s.constructions + 1, s.destructions⟩
  else
    ⟨wrap32 (s.count + 1), s.constructions, s.destructions⟩

/-- `nifty_init::destroy() &&`: `if (--_count == 0) ~T()` — the value observed
by the test is the decremented (wrapped) stored value.  Destructs `T` exactly
when the post-decrement value is 0. -/
def nifty_destroy (s : NiftyState) : NiftyState :=
  if wrap32 (s.count - 1) = 0 then
    ⟨wrap32 (s.count - 1), s.constructions, s.destructions + 1⟩
  else
    ⟨wrap32 (s.count - 1), s.constructions, s.destructions⟩

/-- `nifty_init::get()` in a checked build: `ATUM_LIFETIME_ASSERT(_count > 0)`
then return the storage reference (`self`); modelled as `none` when the
assertion fails. -/
def nifty_get (self : Nat) (s : NiftyState) : Option Nat :=
  if 0 < s.count then some self else none

/-- `nifty_init::reference()`: `constexpr`, `noexcept`, returns the storage
reference directly — it reads no lifetime state and contains no assertion in
any build. -/
def nifty_reference (self : Nat) (_s : NiftyState) : Nat :=
  self

inductive NiftyOp where
  | initOp
  | destroy
deriving DecidableEq, Repr

/-- One `initialize()` (claim) or `destroy()` (release) call. -/
def niftyStep (s : NiftyState) : NiftyOp → NiftyState
  | .initOp => nifty_initialize_op s
  | .destroy => nifty_destroy s

/-- Run a sequential trace of claim/release calls from a given state. -/
def runNiftyFrom (s : NiftyState) (ops : List NiftyOp) : NiftyState :=
  ops.foldl niftyStep s

/-- Run a sequential trace of claim/release calls on a fresh `nifty_init`. -/
def runNifty (ops : List NiftyOp) : NiftyState :=
  runNiftyFrom niftyFresh ops

/-- Number of `initialize()` calls in a trace. -/
def initsIn : List NiftyOp → Nat
  | [] => 0
  | .initOp :: rest => initsIn rest + 1
  | .destroy :: rest => initsIn rest

/-- Number of `destroy()` calls in a trace. -/
def destroysIn : List NiftyOp → Nat
  | [] => 0
  | .initOp :: rest => destroysIn rest
  | .destroy :: rest => destroysIn rest + 1

/-! ### scoped_initializer

`scoped_initializer<Inits...>`'s constructor is the fold expression
`(Inits.initOp(), ...)`, which evaluates left-to-right; its `noexcept`
destructor is the right fold `((Inits.destroy(), dummy) = ... = 0)`, whose
built-in assignments evaluate their right operand first, hence right-to-left.
Entities are identified by `Nat`; the calls made are recorded as a trace of
events. -/

inductive SEvent where
  | init (i : Nat)
  | destroy (i : Nat)
deriving DecidableEq, Repr

/-- The constructor's left fold `(Inits.initOp(), ...)`: the trace of
`initialize()` calls it performs, accumulated left-to-right. -/
def scoped_ctor (es : List Nat) : List SEvent :=
  es.foldl (fun tr i => tr ++ [SEvent.init i]) []

/-- The destructor's right fold `((Inits.destroy(), dummy) = ... = 0)`: the
trace of `destroy()` calls it performs.  The fold is right-associated and each
assignment evaluates its right operand first, so the recursion emits the tail's
events before the head's. -/
def scoped_dtor (es : List Nat) : List SEvent :=
  es.foldr (fun i tr => tr ++ [SEvent.destroy i]) []

/-- The destructor's right fold when an entity's `destroy()` may raise
(`fails i = true`).  The destructor is `noexcept`, so an escaping exception
calls `std::terminate`: evaluation stops at the failing call and the remaining
(earlier-declared) entities' `destroy()` calls never run.  Result: the trace of
attempted `destroy()` calls and whether the process terminated. -/
def scoped_dtor_exc (fails : Nat → Bool) : List Nat → List SEvent × Bool
  | [] => ([], false)
  | e :: rest =>
    let tail := scoped_dtor_exc fails rest
    if tail.2 then
      (tail.1, true)
    else if fails e then
      (tail.1 ++ [SEvent.destroy e], true)
    else
      (tail.1 ++ [SEvent.destroy e], false)

/-! ## Helper lemmas -/

theorem lazyStep_fresh (self : Nat) (op : LazyOp) :
    lazyStep self lazyFresh op = lazyOne self := by
  cases op <;> simp [lazyStep, lazy_initialize_op, lazy_get, lazyFresh, lazyOne]

theorem lazyStep_one (self : Nat) (op : LazyOp) :
    lazyStep self (lazyOne self) op = lazyOne self := by
  cases op <;> simp [lazyStep, lazy_initialize_op, lazy_get, lazyOne]

theorem foldl_lazyStep_one (self : Nat) (ops : List LazyOp) :
    ops.foldl (lazyStep self) (lazyOne self) = lazyOne self := by
  induction ops with
  | nil => rfl
  | cons a l ih => simp [List.foldl_cons, lazyStep_one, ih]

theorem scoped_ctor_go (es : List Nat) :
    ∀ acc : List SEvent,
      es.foldl (fun tr i => tr ++ [SEvent.init i]) acc = acc ++ es.map SEvent.init := by
  induction es with
  | nil => intro acc; simp
  | cons e rest ih => intro acc; simp [List.foldl_cons, ih]

theorem wrap32_eq_self (n : Int) (h1 : -2147483648 ≤ n) (h2 : n ≤ 2147483647) :
    wrap32 n = n := by
  unfold wrap32
  rw [Int.emod_eq_of_lt (by omega) (by omega)]
  omega

theorem nifty_initialize_op_count (s : NiftyState) :
    (nifty_initialize_op s).count = wrap32 (s.count + 1) := by
  unfold nifty_initialize_op; split <;> rfl

theorem nifty_initialize_op_constructions (s : NiftyState) :
    (nifty_initialize_op s).constructions
      = (if s.count = 0 then s.constructions + 1 else s.constructions) := by
  unfold nifty_initialize_op; split <;> simp_all

theorem nifty_initialize_op_destructions (s : NiftyState) :
    (nifty_initialize_op s).destructions = s.destructions := by
  unfold nifty_initialize_op; split <;> rfl

theorem nifty_destroy_count (s : NiftyState) :
    (nifty_destroy s).count = wrap32 (s.count - 1) := by
  unfold nifty_destroy; split <;> rfl

theorem nifty_destroy_constructions (s : NiftyState) :
    (nifty_destroy s).constructions = s.constructions := by
  unfold nifty_destroy; split <;> rfl

theorem nifty_destroy_destructions (s : NiftyState) :
    (nifty_destroy s).destructions
      = (if wrap32 (s.count - 1) = 0 then s.destructions + 1 else s.destructions) := by
  unfold nifty_destroy; split <;> simp_all

theorem initsIn_append (l1 l2 : List NiftyOp) :
    initsIn (l1 ++ l2) = initsIn l1 + initsIn l2 := by
  induction l1 with
  | nil => simp [initsIn]
  | cons a l ih =>
    cases a with
    | initOp => simp [initsIn, ih]; omega
    | destroy => simp [initsIn, ih]

theorem destroysIn_append (l1 l2 : List NiftyOp) :
    destroysIn (l1 ++ l2) = destroysIn l1 + destroysIn l2 := by
  induction l1 with
  | nil => simp [destroysIn]
  | cons a l ih =>
    cases a with
    | initOp => simp [destroysIn, ih]
    | destroy => simp [destroysIn, ih]; omega

theorem runNifty_append_one (l : List NiftyOp) (a : NiftyOp) :
    runNifty (l ++ [a]) = niftyStep (runNifty l) a := by
  simp [runNifty, runNiftyFrom, List.foldl_append]

theorem runNifty_count_eq (ops : List NiftyOp) :
    (∀ k, k ≤ ops.length → destroysIn (ops.take k) ≤ initsIn (ops.take k)) →
    initsIn ops ≤ 2147483647 →
    ∀ k, k ≤ ops.length →
      (runNifty (ops.take k)).count
        = (initsIn (ops.take k) : Int) - destroysIn (ops.take k) := by
  induction ops using List.reverseRecOn with
  | nil =>
    intro _ _ k hk
    obtain rfl : k = 0 := Nat.le_zero.mp hk
    simp [runNifty, runNiftyFrom, initsIn, destroysIn, niftyFresh]
  | append_singleton l a ih =>
    intro hbal hinit k hk
    have htake : ∀ j, j ≤ l.length → (l ++ [a]).take j = l.take j := by
      intro j hj; exact List.take_append_of_le_length hj
    have hbal' : ∀ j, j ≤ l.length → destroysIn (l.take j) ≤ initsIn (l.take j) := by
      intro j hj
      have h := hbal j (by simp; omega)
      rwa [htake j hj] at h
    have hinit' : initsIn l ≤ 2147483647 := by
      rw [initsIn_append] at hinit
      omega
    by_cases hk' : k ≤ l.length
    · rw [htake k hk']
      exact ih hbal' hinit' k hk'
    · have hk2 : k = l.length + 1 := by simp at hk; omega
      subst hk2
      have hfull : (l ++ [a]).take (l.length + 1) = l ++ [a] := by
        apply List.take_of_length_le
        simp
      rw [hfull, runNifty_append_one]
      have hprev := ih hbal' hinit' l.length le_rfl
      simp only [List.take_length] at hprev
      have hbal0 : destroysIn l ≤ initsIn l := by
        have h := hbal' l.length le_rfl
        simpa using h
      have hballast := hbal (l.length + 1) (by simp)
      rw [hfull] at hballast
      rw [initsIn_append] at hinit
      rw [initsIn_append, destroysIn_append] at hballast ⊢
      cases a with
      | initOp =>
        show (nifty_initialize_op (runNifty l)).count = _
        rw [nifty_initialize_op_count, hprev,
          wrap32_eq_self ((initsIn l : Int) - destroysIn l + 1) (by omega)
            (by simp [initsIn] at hinit; omega)]
        simp [initsIn, destroysIn]
        omega
      | destroy =>
        show (nifty_destroy (runNifty l)).count = _
        rw [nifty_destroy_count, hprev,
          wrap32_eq_self ((initsIn l : Int) - destroysIn l - 1)
            (by simp [destroysIn] at hballast; omega) (by omega)]
        simp [initsIn, destroysIn]
        omega

theorem nifty_core (ops : List NiftyOp) :
    ops ≠ [] →
    (∀ k, k ≤ ops.length → destroysIn (ops.take k) ≤ initsIn (ops.take k)) →
    (∀ k, k < ops.length → 0 < k → 0 < (runNifty (ops.take k)).count) →
    initsIn ops ≤ 2147483647 →
    (runNifty ops).constructions = 1 ∧
    (runNifty ops).destructions = (if (runNifty ops).count = 0 then 1 else 0) := by
  induction ops using List.reverseRecOn with
  | nil => intro h; exact absurd rfl h
  | append_singleton l a ih =>
    intro _ hbal hpos hinit
    by_cases hl : l = []
    · subst hl
      cases a with
      | initOp => decide
      | destroy => exact absurd (hbal 1 (by decide)) (by decide)
    · have hlen : 0 < l.length := List.length_pos.mpr hl
      have htake : ∀ k, k ≤ l.length → (l ++ [a]).take k = l.take k := by
        intro k hk; exact List.take_append_of_le_length hk
      have hbal' : ∀ k, k ≤ l.length → destroysIn (l.take k) ≤ initsIn (l.take k) := by
        intro k hk
        have h := hbal k (by simp; omega)
        rwa [htake k hk] at h
      have hpos' : ∀ k, k < l.length → 0 < k → 0 < (runNifty (l.take k)).count := by
        intro k hk h0
        have h := hpos k (by simp; omega) h0
        rwa [htake k (le_of_lt hk)] at h
      have hinit' : initsIn l ≤ 2147483647 := by
        rw [initsIn_append] at hinit
        omega
      obtain ⟨ihc, ihd⟩ := ih hl hbal' hpos' hinit'
      have hc : 0 < (runNifty l).count := by
        have h := hpos l.length (by simp) hlen
        rw [htake l.length le_rfl] at h
        simpa using h
      have hcl : (runNifty l).count = (initsIn l : Int) - destroysIn l := by
        have h := runNifty_count_eq l hbal' hinit' l.length le_rfl
        simpa using h
      have hd0 : (runNifty l).destructions = 0 := by
        rw [ihd, if_neg (by omega)]
      rw [runNifty_append_one]
      cases a with
      | initOp =>
        have hbound : (runNifty l).count + 1 ≤ 2147483647 := by
          rw [initsIn_append] at hinit
          simp [initsIn] at hinit
          rw [hcl]
          omega
        have hw : wrap32 ((runNifty l).count + 1) = (runNifty l).count + 1 :=
          wrap32_eq_self ((runNifty l).count + 1) (by omega) hbound
        constructor
        · show (nifty_initialize_op (runNifty l)).constructions = 1
          rw [nifty_initialize_op_constructions, if_neg (by omega), ihc]
        · show (nifty_initialize_op (runNifty l)).destructions
            = (if (nifty_initialize_op (runNifty l)).count = 0 then 1 else 0)
          rw [nifty_initialize_op_destructions, nifty_initialize_op_count, hw,
            if_neg (by omega), hd0]
      | destroy =>
        constructor
        · show (nifty_destroy (runNifty l)).constructions = 1
          rw [nifty_destroy_constructions, ihc]
        · show (nifty_destroy (runNifty l)).destructions
            = (if (nifty_destroy (runNifty l)).count = 0 then 1 else 0)
          rw [nifty_destroy_destructions, nifty_destroy_count, hd0]

/-! ## Theorems for the claims -/

/-- Claim C3: for a `scoped_initializer` over referenced entities
`[e₀, e₁, …]`, the constructor calls `initialize()` on each entity in declared
left-to-right order, and the destructor calls `destroy()` on each entity in
exactly the reverse right-to-left order. -/
theorem scoped_initializer_order (es : List Nat) :
    scoped_ctor es = es.map SEvent.init ∧
    scoped_dtor es = es.reverse.map SEvent.destroy := by
  constructor
  · simpa using scoped_ctor_go es []
  · induction es with
    | nil => rfl
    | cons e rest ih =>
      simp [scoped_dtor, List.foldr_cons] at ih ⊢
      simp [ih]

/-- Claim C4, counterexample to the claim as stated: with entities `[0, 1, 2]`
where entity 2's `destroy()` raises, the `noexcept` destructor terminates the
process at that first (rightmost) teardown call, so the `destroy()` calls for
the remaining earlier-declared entities 1 and 0 are skipped, not attempted. -/
theorem scoped_teardown_skipped_cex :
    scoped_dtor_exc (fun i => i == 2) [0, 1, 2] = ([SEvent.destroy 2], true) ∧
    SEvent.destroy 1 ∉ (scoped_dtor_exc (fun i => i == 2) [0, 1, 2]).1 ∧
    SEvent.destroy 0 ∉ (scoped_dtor_exc (fun i => i == 2) [0, 1, 2]).1 := by
  decide

/-- Claim C4 (amended): the destructor of `scoped_initializer` is `noexcept`,
so if a referenced entity's `destroy()` raises, the process terminates at that
point and the remaining (earlier-declared) entities' `destroy()` calls are
skipped; when no entity's `destroy()` raises, every entity's `destroy()` runs,
in right-to-left order. -/
theorem scoped_teardown_noexcept (fails : Nat → Bool) (es : List Nat)
    (h : ∀ i ∈ es, fails i = false) :
    scoped_dtor_exc fails es = (es.reverse.map SEvent.destroy, false) := by
  induction es with
  | nil => rfl
  | cons e rest ih =>
    have he : fails e = false := h e (List.mem_cons_self e rest)
    have hrest : ∀ i ∈ rest, fails i = false := fun i hi => h i (List.mem_cons_of_mem e hi)
    simp [scoped_dtor_exc, ih hrest, he]

/-- Witness for `scoped_teardown_noexcept` at entities `[0, 1, 2]` with no
failing `destroy()`. -/
theorem scoped_teardown_noexcept_witness :
    scoped_dtor_exc (fun _ => false) [0, 1, 2]
      = ([0, 1, 2].reverse.map SEvent.destroy, false) :=
  scoped_teardown_noexcept (fun _ => false) [0, 1, 2] (by decide)

/-- Claim C1: on a single `lazy_init` instance `self` with a fresh `Tag`, any
nonempty sequence of `initialize()`/`get()` calls leaves the per-`Tag` state at
exactly one construction, performed into `self`'s storage by the first call;
every call from the steady state is a no-op whose lifetime assertion passes,
and `get()` always returns the one reference `self`, from the fresh state and
from the steady state alike. -/
theorem lazy_once_per_tag (self : Nat) (ops : List LazyOp) (h : ops ≠ []) :
    runLazy self ops = lazyOne self ∧
    (runLazy self ops).constructions = 1 ∧
    lazy_get self lazyFresh = (lazyOne self, true, self) ∧
    lazy_initialize_op self (lazyOne self) = (lazyOne self, true) ∧
    lazy_get self (lazyOne self) = (lazyOne self, true, self) := by
  have hrun : runLazy self ops = lazyOne self := by
    cases ops with
    | nil => exact absurd rfl h
    | cons a l =>
      show (a :: l).foldl (lazyStep self) lazyFresh = lazyOne self
      rw [List.foldl_cons, lazyStep_fresh]
      exact foldl_lazyStep_one self l
  refine ⟨hrun, by rw [hrun]; rfl, ?_, ?_, ?_⟩
  · simp [lazy_get, lazy_initialize_op, lazyFresh, lazyOne]
  · simp [lazy_initialize_op, lazyOne]
  · simp [lazy_get, lazy_initialize_op, lazyOne]

/-- Witness for `lazy_once_per_tag` at `self = 0` and the call sequence
`[get, initialize, get]`. -/
theorem lazy_once_per_tag_witness :
    runLazy 0 [LazyOp.get, LazyOp.initOp, LazyOp.get] = lazyOne 0 ∧
    (runLazy 0 [LazyOp.get, LazyOp.initOp, LazyOp.get]).constructions = 1 ∧
    lazy_get 0 lazyFresh = (lazyOne 0, true, 0) ∧
    lazy_initialize_op 0 (lazyOne 0) = (lazyOne 0, true) ∧
    lazy_get 0 (lazyOne 0) = (lazyOne 0, true, 0) :=
  lazy_once_per_tag 0 [LazyOp.get, LazyOp.initOp, LazyOp.get] (by decide)

/-- Claim C7: in a checked build, when two distinct `lazy_init` instances
`a ≠ b` share the same `Tag`, the first initialization by `a` records `a`'s
identity as the owner, and `b`'s first `initialize()` or `get()` then fails
the identity assertion and performs no construction. -/
theorem lazy_tag_collision (a b : Nat) (h : a ≠ b) :
    (lazy_initialize_op a lazyFresh).1.owner = some a ∧
    (lazy_initialize_op b (lazy_initialize_op a lazyFresh).1).2 = false ∧
    (lazy_get b (lazy_initialize_op a lazyFresh).1).2.1 = false ∧
    (lazy_initialize_op b (lazy_initialize_op a lazyFresh).1).1
      = (lazy_initialize_op a lazyFresh).1 := by
  simp [lazy_initialize_op, lazy_get, lazyFresh]
  exact h

/-- Witness for `lazy_tag_collision` at the distinct instances `0` and `1`. -/
theorem lazy_tag_collision_witness :
    (lazy_initialize_op 0 lazyFresh).1.owner = some 0 ∧
    (lazy_initialize_op 1 (lazy_initialize_op 0 lazyFresh).1).2 = false ∧
    (lazy_get 1 (lazy_initialize_op 0 lazyFresh).1).2.1 = false ∧
    (lazy_initialize_op 1 (lazy_initialize_op 0 lazyFresh).1).1
      = (lazy_initialize_op 0 lazyFresh).1 :=
  lazy_tag_collision 0 1 (by decide)

/-- Claim C8: `lazy_init::destroy()` is a no-op — it changes no state and runs
no destructor, so `get()` behaves identically before and after it, still
returning the same valid reference. -/
theorem lazy_destroy_noop (s : LazyTagState) (self : Nat) :
    lazy_destroy s = s ∧
    lazy_get self (lazy_destroy s) = lazy_get self s ∧
    (lazy_destroy s).constructions = s.constructions := by
  exact ⟨rfl, rfl, rfl⟩

/-- Claim C5, counterexample to the claim as stated: in the checked build
model, a second `initialize()` on an already-initialized `manual_init` does
not fail any assertion (`initialize()` contains no `ATUM_LIFETIME_ASSERT`);
it silently runs a second construction. -/
theorem manual_double_initialize_cex :
    (manual_initialize_op (manual_initialize_op manualFresh).1).2 = true ∧
    (manual_initialize_op (manual_initialize_op manualFresh).1).1.constructions = 2 := by
  decide

/-- Claim C5 (amended): calling `initialize()` on an already-initialized
`manual_init` is a contract violation that is undefined behavior in all
builds: even with `ATUM_CHECK_LIFETIME` enabled, `initialize()` performs no
assertion, so the violation is not detected — a second construction runs over
the live object. -/
theorem manual_double_initialize_ub (s : ManualState) (_h : s.initialized = true) :
    (manual_initialize_op s).2 = true ∧
    (manual_initialize_op s).1.constructions = s.constructions + 1 ∧
    (manual_initialize_op s).1.initialized = true := by
  exact ⟨rfl, rfl, rfl⟩

/-- Witness for `manual_double_initialize_ub` at the state reached by one
`initialize()` from fresh. -/
theorem manual_double_initialize_witness :
    (manual_initialize_op (manual_initialize_op manualFresh).1).2 = true ∧
    (manual_initialize_op (manual_initialize_op manualFresh).1).1.constructions
      = (manual_initialize_op manualFresh).1.constructions + 1 ∧
    (manual_initialize_op (manual_initialize_op manualFresh).1).1.initialized = true :=
  manual_double_initialize_ub (manual_initialize_op manualFresh).1 (by decide)

/-- Claim C6: in a checked build, `manual_init::get()` asserts the instance is
currently initialized — it fails on the fresh state and after any `destroy()`;
in any initialized state it succeeds and returns the one storage reference
`self`, and each `destroy()` runs the destructor exactly once. -/
theorem manual_lifecycle (self : Nat) (s : ManualState) :
    (manual_get self manualFresh).1 = false ∧
    (s.initialized = true → manual_get self s = (true, self)) ∧
    (manual_get self (manual_destroy s).1).1 = false ∧
    (manual_destroy s).1.destructions = s.destructions + 1 ∧
    manual_get self (manual_initialize_op s).1 = (true, self) := by
  refine ⟨rfl, ?_, rfl, rfl, rfl⟩
  intro h
  simp [manual_get, h]

/-- Witness for `manual_lifecycle` at `self = 0` and the state reached by one
`initialize()` from fresh. -/
theorem manual_lifecycle_witness :
    (manual_get 0 manualFresh).1 = false ∧
    manual_get 0 (manual_initialize_op manualFresh).1 = (true, 0) ∧
    (manual_get 0 (manual_destroy (manual_initialize_op manualFresh).1).1).1 = false := by
  have h := manual_lifecycle 0 (manual_initialize_op manualFresh).1
  exact ⟨h.1, h.2.1 (by decide), h.2.2.1⟩

/-- Claim C2, counterexample to the claim as stated: the trace
`[initialize, destroy, initialize]` satisfies the claim's precondition (each
destroy is preceded by a matching unmatched initialize — every prefix has at
least as many initializes as destroys), yet `T` is constructed twice: the
third call sees the counter back at 0 and re-runs construction, so
"constructed exactly once on the first claim" fails. -/
theorem nifty_reconstruct_cex :
    destroysIn ([] : List NiftyOp) ≤ initsIn ([] : List NiftyOp) ∧
    destroysIn [NiftyOp.initOp] ≤ initsIn [NiftyOp.initOp] ∧
    destroysIn [NiftyOp.initOp, NiftyOp.destroy]
      ≤ initsIn [NiftyOp.initOp, NiftyOp.destroy] ∧
    destroysIn [NiftyOp.initOp, NiftyOp.destroy, NiftyOp.initOp]
      ≤ initsIn [NiftyOp.initOp, NiftyOp.destroy, NiftyOp.initOp] ∧
    (runNifty [NiftyOp.initOp, NiftyOp.destroy, NiftyOp.initOp]).constructions = 2 ∧
    (runNifty [NiftyOp.initOp]).constructions = 1 := by
  decide

/-- Claim C2 (amended): in every sequential trace of `initialize()` (claim)
and `destroy()` (release) calls on a fresh `nifty_init` in which each destroy
is preceded by a matching unmatched initialize, `initialize()` increments the
counter (as wrapping 32-bit signed arithmetic, since the counter is an
`std::atomic<int>`) and constructs `T` exactly when the pre-increment value
was 0, and `destroy()` decrements the counter and runs the destructor exactly
when the post-decrement value is 0.  Provided the trace makes at most
`2^31 - 1` claims — so that the int counter never overflows — the counter is
never negative at any prefix; if moreover the counter returns to zero only at
the end of the trace (no claim is made after a release has brought the count
back to 0), then `T` is constructed exactly once, on the first claim, and
destructed exactly once by the final release when the count ends at zero (and
never otherwise). -/
theorem nifty_refcount_trace (ops : List NiftyOp) (hne : ops ≠ [])
    (hbal : ∀ k, k ≤ ops.length → destroysIn (ops.take k) ≤ initsIn (ops.take k))
    (hpos : ∀ k, k < ops.length → 0 < k → 0 < (runNifty (ops.take k)).count)
    (hinit : initsIn ops ≤ 2147483647) :
    (∀ s : NiftyState,
        (nifty_initialize_op s).count = wrap32 (s.count + 1) ∧
        (nifty_initialize_op s).constructions
          = (if s.count = 0 then s.constructions + 1 else s.constructions) ∧
        (nifty_destroy s).count = wrap32 (s.count - 1) ∧
        (nifty_destroy s).destructions
          = (if wrap32 (s.count - 1) = 0 then s.destructions + 1
             else s.destructions)) ∧
    (∀ k, k ≤ ops.length → 0 ≤ (runNifty (ops.take k)).count) ∧
    (runNifty ops).constructions = 1 ∧
    (runNifty ops).destructions = (if (runNifty ops).count = 0 then 1 else 0) := by
  refine ⟨?_, ?_, nifty_core ops hne hbal hpos hinit⟩
  · intro s
    exact ⟨nifty_initialize_op_count s, nifty_initialize_op_constructions s,
      nifty_destroy_count s, nifty_destroy_destructions s⟩
  · intro k hk
    have h := hbal k hk
    rw [runNifty_count_eq ops hbal hinit k hk]
    omega

/-- Witness for `nifty_refcount_trace` at the trace
`[initialize, destroy]`: one construction, one destruction, final count 0. -/
theorem nifty_refcount_trace_witness :
    (runNifty [NiftyOp.initOp, NiftyOp.destroy]).constructions = 1 ∧
    (runNifty [NiftyOp.initOp, NiftyOp.destroy]).destructions = 1 ∧
    (runNifty [NiftyOp.initOp, NiftyOp.destroy]).count = 0 := by
  have h := nifty_refcount_trace [NiftyOp.initOp, NiftyOp.destroy]
    (by decide) (by decide) (by decide) (by decide)
  refine ⟨h.2.2.1, ?_, by decide⟩
  rw [h.2.2.2]
  decide

/-- Claim C10: `nifty_init::reference()` returns the storage reference with no
lifetime check in any state — in particular with the count at 0 — whereas the
checked-build `get()` succeeds exactly when the count is positive. -/
theorem nifty_reference_no_check (self : Nat) (s : NiftyState) :
    nifty_reference self s = self ∧
    nifty_get self s = (if 0 < s.count then some self else none) ∧
    nifty_reference self ⟨0, s.constructions, s.destructions⟩ = self ∧
    nifty_get self ⟨0, s.constructions, s.destructions⟩ = none := by
  refine ⟨rfl, rfl, rfl, ?_⟩
  simp [nifty_get]

end Atum
